import Mathlib

/-!
Verification of the ESP32 FreeRTOS BLE/WiFi/EEPROM provisioning sketch
(src/main.cpp) against its natural-language specification.

The embedding below translates the source functions directly:

* EEPROM storage is a byte map (Nat to Nat) of capacity EEPROM_SIZE = 128.
  The ESP32 Arduino EEPROM driver returns 0 on an out-of-range read and
  ignores an out-of-range write; eepromRead and eepromWrite model that.
* C++ strings are lists of byte values (List Nat); a C string constructed
  from a byte buffer keeps the bytes before the first zero (cString).
* readStringFromEEPROM and writeStringToEEPROM follow the loops of
  main.cpp lines 71-96; the while loop of the reader is translated with a
  fuel argument large enough (EEPROM_SIZE + 1) to cover every iteration
  the C++ loop performs, since len increases by one each pass and the
  loop bound is len < EEPROM_SIZE.
* The BLE characteristic callbacks (main.cpp lines 134-167) become pure
  state transformers on a record holding the two credential globals and
  the EEPROM contents; the returned Option Nat is the restart request
  with its grace delay in ms (none when no restart happens).
* The keepWiFiAlive task (main.cpp lines 233-262) becomes a step
  function on time in ms: WiFi status is an opaque environment oracle
  (Nat to Bool, true = WL_CONNECTED), vTaskDelay advances time by its
  argument, and one loop iteration returns the next iteration time
  together with whether WiFi.begin was called and whether the attempt
  timed out (triggering the 20000 ms penalty delay).
-/

set_option maxRecDepth 100000

namespace ESP32Prov

/-- EEPROM_SIZE from main.cpp line 41: 128 bytes, 64 for SSID, 64 for password. -/
def EEPROM_SIZE : Nat := 128

/-- SSID_ADDR from main.cpp line 42: EEPROM base offset of the SSID slot. -/
def SSID_ADDR : Nat := 0

/-- PASS_ADDR from main.cpp line 43: EEPROM base offset of the password slot. -/
def PASS_ADDR : Nat := 64

/-- WIFI_TIMEOUT_MS from main.cpp line 52: 10-second connection timeout. -/
def WIFI_TIMEOUT_MS : Nat := 10000

/-- EEPROM.read of the ESP32 Arduino core: the stored byte, or 0 when the
address is outside the allocated size. -/
def eepromRead (m : Nat → Nat) (a : Nat) : Nat :=
  if a < EEPROM_SIZE then m a else 0

/-- EEPROM.write of the ESP32 Arduino core: store a byte, ignored when the
address is outside the allocated size. -/
def eepromWrite (m : Nat → Nat) (a v : Nat) : Nat → Nat :=
  if a < EEPROM_SIZE then (fun x => if x = a then v else m x) else m

/-- Arduino String construction from a char buffer: the bytes strictly
before the first zero byte. -/
def cString : List Nat → List Nat
  | [] => []
  | c :: rest => if c = 0 then [] else c :: cString rest

/-- The while loop of readStringFromEEPROM (main.cpp lines 76-80):
while (k != 0 and len < EEPROM_SIZE) read the byte at address + len,
append it to the data buffer, increment len. The fuel argument only
bounds the number of passes; it is chosen large enough that the loop
always exits through its own condition first. -/
def readLoop (m : Nat → Nat) (address : Nat) : Nat → Nat → List Nat → Nat → List Nat
  | _, _, data, 0 => data
  | k, len, data, fuel + 1 =>
    if k ≠ 0 ∧ len < EEPROM_SIZE then
      readLoop m address (eepromRead m (address + len)) (len + 1)
        (data ++ [eepromRead m (address + len)]) fuel
    else data

/-- readStringFromEEPROM (main.cpp lines 71-83): prime k with the byte at
the base address, run the while loop, and build the returned String from
the data buffer (which stops at the first zero byte). -/
def readStringFromEEPROM (m : Nat → Nat) (address : Nat) : List Nat :=
  cString (readLoop m address (eepromRead m address) 0 [] (EEPROM_SIZE + 1))

/-- The for loop of writeStringToEEPROM (main.cpp lines 91-93): write the
bytes of the string sequentially starting at the base address. -/
def writeBytes (m : Nat → Nat) (address : Nat) : List Nat → (Nat → Nat)
  | [] => m
  | c :: rest => writeBytes (eepromWrite m address c) (address + 1) rest

/-- writeStringToEEPROM (main.cpp lines 90-96): write every byte of the
string, then a terminating zero byte at address + length, then commit
(the commit has no observable effect in this model). -/
def writeStringToEEPROM (m : Nat → Nat) (address : Nat) (str : List Nat) : Nat → Nat :=
  eepromWrite (writeBytes m address str) (address + str.length) 0

/-- loadCredentials (main.cpp lines 101-110): read the SSID slot and the
password slot into the credential pair. -/
def loadCredentials (m : Nat → Nat) : List Nat × List Nat :=
  (readStringFromEEPROM m SSID_ADDR, readStringFromEEPROM m PASS_ADDR)

example : loadCredentials (fun _ => 0) = ([], []) := by decide

example : readStringFromEEPROM
    (fun a => if a = 0 then 72 else if a = 1 then 105 else 0) SSID_ADDR = [72, 105] := by decide

example : loadCredentials (fun _ => 255)
    = (List.replicate 128 255, List.replicate 64 255) := by decide

example : readStringFromEEPROM
    (writeStringToEEPROM (fun _ => 0) PASS_ADDR [112, 119]) PASS_ADDR = [112, 119] := by decide

/-! Basic lemmas about single-byte reads and writes. -/

theorem eepromRead_write_same (m : Nat → Nat) (a v : Nat) (h : a < EEPROM_SIZE) :
    eepromRead (eepromWrite m a v) a = v := by
  simp [eepromRead, eepromWrite, h]

theorem eepromWrite_oob (m : Nat → Nat) (a v : Nat) (h : ¬ a < EEPROM_SIZE) :
    eepromWrite m a v = m := by
  unfold eepromWrite
  rw [if_neg h]

theorem eepromRead_oob (m : Nat → Nat) (a : Nat) (h : ¬ a < EEPROM_SIZE) :
    eepromRead m a = 0 := by
  unfold eepromRead
  rw [if_neg h]

theorem eepromRead_write_other (m : Nat → Nat) (a v x : Nat) (h : x ≠ a) :
    eepromRead (eepromWrite m a v) x = eepromRead m x := by
  unfold eepromRead eepromWrite
  by_cases ha : a < EEPROM_SIZE <;> by_cases hx : x < EEPROM_SIZE <;> simp [ha, hx, h]

/-! Lemmas about the byte-sequence write loop. -/

theorem writeBytes_read_below (v : List Nat) (m : Nat → Nat) (addr x : Nat) (h : x < addr) :
    eepromRead (writeBytes m addr v) x = eepromRead m x := by
  induction v generalizing m addr with
  | nil => rfl
  | cons c rest ih =>
    rw [writeBytes, ih _ _ (by omega)]
    exact eepromRead_write_other m addr c x (by omega)

theorem writeBytes_read_above (v : List Nat) (m : Nat → Nat) (addr x : Nat)
    (h : addr + v.length ≤ x) :
    eepromRead (writeBytes m addr v) x = eepromRead m x := by
  induction v generalizing m addr with
  | nil => rfl
  | cons c rest ih =>
    simp only [List.length_cons] at h
    rw [writeBytes, ih _ _ (by omega)]
    exact eepromRead_write_other m addr c x (by omega)

theorem writeBytes_read_in (v : List Nat) (m : Nat → Nat) (addr i : Nat)
    (h : i < v.length) (hr : addr + i < EEPROM_SIZE) :
    eepromRead (writeBytes m addr v) (addr + i) = v.getD i 0 := by
  induction v generalizing m addr i with
  | nil => simp at h
  | cons c rest ih =>
    cases i with
    | zero =>
      rw [writeBytes, writeBytes_read_below rest _ _ _ (by omega)]
      simpa using eepromRead_write_same m addr c (by omega)
    | succ j =>
      simp only [List.length_cons] at h
      have hstep : addr + (j + 1) = (addr + 1) + j := by omega
      rw [writeBytes, hstep, ih _ _ _ (by omega) (by omega)]
      rfl

/-! Lemmas about the full string write: the storage seen afterwards. -/

theorem writeString_read_below (m : Nat → Nat) (addr : Nat) (v : List Nat) (x : Nat)
    (h : x < addr) :
    eepromRead (writeStringToEEPROM m addr v) x = eepromRead m x := by
  unfold writeStringToEEPROM
  rw [eepromRead_write_other _ _ _ _ (by omega)]
  exact writeBytes_read_below v m addr x h

theorem writeString_read_above (m : Nat → Nat) (addr : Nat) (v : List Nat) (x : Nat)
    (h : addr + v.length < x) :
    eepromRead (writeStringToEEPROM m addr v) x = eepromRead m x := by
  unfold writeStringToEEPROM
  rw [eepromRead_write_other _ _ _ _ (by omega)]
  exact writeBytes_read_above v m addr x (by omega)

theorem writeString_read_in (m : Nat → Nat) (addr : Nat) (v : List Nat) (i : Nat)
    (h : i < v.length) (hr : addr + i < EEPROM_SIZE) :
    eepromRead (writeStringToEEPROM m addr v) (addr + i) = v.getD i 0 := by
  unfold writeStringToEEPROM
  rw [eepromRead_write_other _ _ _ _ (by omega)]
  exact writeBytes_read_in v m addr i h hr

theorem writeString_read_term (m : Nat → Nat) (addr : Nat) (v : List Nat)
    (hr : addr + v.length < EEPROM_SIZE) :
    eepromRead (writeStringToEEPROM m addr v) (addr + v.length) = 0 := by
  unfold writeStringToEEPROM
  exact eepromRead_write_same _ _ _ hr

/-! Lemmas about cString and list prefixes. -/

theorem cString_append_zero (v rest : List Nat) (hnz : ∀ c ∈ v, c ≠ 0) :
    cString (v ++ 0 :: rest) = v := by
  induction v with
  | nil => simp [cString]
  | cons c t ih =>
    have hc : c ≠ 0 := hnz c (by simp)
    simp only [List.cons_append, cString, if_neg hc, List.append_eq]
    rw [ih (fun x hx => hnz x (by simp [hx]))]

theorem cString_length_le (l : List Nat) : (cString l).length ≤ l.length := by
  induction l with
  | nil => simp [cString]
  | cons c t ih =>
    by_cases hc : c = 0
    · simp [cString, hc]
    · simp only [cString, if_neg hc, List.length_cons]
      omega

theorem take_append_getD (v : List Nat) (n : Nat) (h : n < v.length) :
    v.take n ++ [v.getD n 0] = v.take (n + 1) := by
  induction v generalizing n with
  | nil => simp at h
  | cons c rest ih =>
    cases n with
    | zero => simp
    | succ j =>
      simp only [List.length_cons] at h
      simp only [List.take_succ_cons, List.getD_cons_succ, List.cons_append]
      rw [ih j (by omega)]

theorem getD_ne_zero (v : List Nat) (n : Nat) (h : n < v.length)
    (hnz : ∀ c ∈ v, c ≠ 0) : v.getD n 0 ≠ 0 := by
  rw [List.getD_eq_getElem v 0 h]
  exact hnz _ (List.getElem_mem h)

theorem getD_take_eq (v : List Nat) (n i : Nat) (h : i < n) :
    (v.take n).getD i 0 = v.getD i 0 := by
  induction v generalizing n i with
  | nil => simp
  | cons c rest ih =>
    cases n with
    | zero => omega
    | succ nn =>
      cases i with
      | zero => simp
      | succ j =>
        simp only [List.take_succ_cons, List.getD_cons_succ]
        exact ih nn j (by omega)

theorem mem_take_mem (v : List Nat) (n c : Nat) (h : c ∈ v.take n) : c ∈ v := by
  induction v generalizing n with
  | nil => simp at h
  | cons a rest ih =>
    cases n with
    | zero => simp at h
    | succ nn =>
      rw [List.take_succ_cons] at h
      rcases List.mem_cons.mp h with h1 | h2
      · exact List.mem_cons.mpr (Or.inl h1)
      · exact List.mem_cons.mpr (Or.inr (ih nn h2))

/-! Characterization of the read loop. -/

theorem readLoop_zero (m : Nat → Nat) (addr len : Nat) (data : List Nat) (fuel : Nat) :
    readLoop m addr 0 len data fuel = data := by
  cases fuel <;> simp [readLoop]

/-- If the storage holds the terminator-free string v at the base address
followed by a zero byte, the read loop run from where it has consumed the
first len characters collects exactly v followed by the terminator. -/
theorem readLoop_run (m : Nat → Nat) (addr : Nat) (v : List Nat)
    (hv : ∀ i, i < v.length → eepromRead m (addr + i) = v.getD i 0)
    (hnz : ∀ c ∈ v, c ≠ 0)
    (hterm : eepromRead m (addr + v.length) = 0)
    (hlen : v.length < EEPROM_SIZE) :
    ∀ fuel len k, len ≤ v.length → v.length + 1 ≤ fuel + len → k ≠ 0 →
      readLoop m addr k len (v.take len) fuel = v ++ [0] := by
  intro fuel
  induction fuel with
  | zero =>
    intro len k h1 h2 _
    exfalso; omega
  | succ fuel ih =>
    intro len k h1 h2 hk
    have hsz : len < EEPROM_SIZE := by
      have : EEPROM_SIZE = 128 := rfl
      omega
    rw [readLoop, if_pos ⟨hk, hsz⟩]
    by_cases hlt : len < v.length
    · have hkv : eepromRead m (addr + len) = v.getD len 0 := hv len hlt
      rw [hkv, take_append_getD v len hlt]
      exact ih (len + 1) _ (by omega) (by omega) (getD_ne_zero v len hlt hnz)
    · have hle : len = v.length := by omega
      subst hle
      rw [hterm, List.take_length, readLoop_zero]

/-- If the storage holds the terminator-free string v at the base address
followed by a zero byte, readStringFromEEPROM returns exactly v. -/
theorem readString_of (m : Nat → Nat) (addr : Nat) (v : List Nat)
    (hv : ∀ i, i < v.length → eepromRead m (addr + i) = v.getD i 0)
    (hnz : ∀ c ∈ v, c ≠ 0)
    (hterm : eepromRead m (addr + v.length) = 0)
    (hlen : v.length < EEPROM_SIZE) :
    readStringFromEEPROM m addr = v := by
  unfold readStringFromEEPROM
  rcases v with _ | ⟨c, rest⟩
  · have h0 : eepromRead m addr = 0 := by simpa using hterm
    rw [h0, readLoop_zero]
    rfl
  · have hk : eepromRead m addr ≠ 0 := by
      have h0 := hv 0 (by simp)
      have hc : c ≠ 0 := hnz c (by simp)
      simpa using h0 ▸ hc
    have hrun := readLoop_run m addr (c :: rest) hv hnz hterm hlen
      (EEPROM_SIZE + 1) 0 (eepromRead m addr) (by omega)
      (by have : EEPROM_SIZE = 128 := rfl; omega) hk
    simp only [List.take_zero] at hrun
    rw [hrun]
    exact cString_append_zero (c :: rest) [] hnz

/-- Round trip through one slot: writing a terminator-free string whose
span fits inside the EEPROM and reading the same base address returns it
unchanged. -/
theorem readString_writeString (m : Nat → Nat) (addr : Nat) (v : List Nat)
    (hnz : ∀ c ∈ v, c ≠ 0) (hrange : addr + v.length < EEPROM_SIZE) :
    readStringFromEEPROM (writeStringToEEPROM m addr v) addr = v := by
  apply readString_of
  · intro i hi
    exact writeString_read_in m addr v i hi (by omega)
  · exact hnz
  · exact writeString_read_term m addr v hrange
  · omega

/-- C5: for every credential pair of terminator-free text with both
lengths strictly below the 64-byte slot width, writing the identifier to
its slot and the secret to its slot and then loading both slots returns
exactly the pair unchanged. -/
theorem store_roundtrip_claim (m : Nat → Nat) (id sec : List Nat)
    (hnz1 : ∀ c ∈ id, c ≠ 0) (hnz2 : ∀ c ∈ sec, c ≠ 0)
    (h1 : id.length < 64) (h2 : sec.length < 64) :
    loadCredentials (writeStringToEEPROM (writeStringToEEPROM m SSID_ADDR id) PASS_ADDR sec)
      = (id, sec) := by
  have hsec : readStringFromEEPROM
      (writeStringToEEPROM (writeStringToEEPROM m SSID_ADDR id) PASS_ADDR sec) PASS_ADDR
      = sec :=
    readString_writeString _ PASS_ADDR sec hnz2 (by show 64 + sec.length < 128; omega)
  have hid : readStringFromEEPROM
      (writeStringToEEPROM (writeStringToEEPROM m SSID_ADDR id) PASS_ADDR sec) SSID_ADDR
      = id := by
    apply readString_of
    · intro i hi
      rw [writeString_read_below _ PASS_ADDR sec _ (by show 0 + i < 64; omega)]
      exact writeString_read_in m SSID_ADDR id i hi (by show 0 + i < 128; omega)
    · exact hnz1
    · rw [writeString_read_below _ PASS_ADDR sec _ (by show 0 + id.length < 64; omega)]
      exact writeString_read_term m SSID_ADDR id (by show 0 + id.length < 128; omega)
    · show id.length < 128
      omega
  unfold loadCredentials
  rw [hid, hsec]

theorem store_roundtrip_witness :
    loadCredentials (writeStringToEEPROM (writeStringToEEPROM (fun _ => 255) SSID_ADDR
        [72, 111, 109, 101]) PASS_ADDR [115, 51, 99, 114])
      = ([72, 111, 109, 101], [115, 51, 99, 114]) :=
  store_roundtrip_claim (fun _ => 255) [72, 111, 109, 101] [115, 51, 99, 114]
    (by decide) (by decide) (by decide) (by decide)

/-- Initial storage holding the two-byte password pw in the password slot
and zeros elsewhere. -/
def mPW : Nat → Nat := fun a => if a = 64 then 112 else if a = 65 then 119 else 0

/-- C1 as stated fails: writing a 64-byte value to the SSID slot neither
truncates the stored/loaded value to 63 characters nor leaves the
adjacent password slot untouched (its previous content is destroyed by
the terminator byte written at offset 64). -/
theorem write_truncation_counterexample :
    ¬ ((readStringFromEEPROM (writeStringToEEPROM mPW SSID_ADDR
          (List.replicate 64 97)) SSID_ADDR).length = 63 ∧
       readStringFromEEPROM (writeStringToEEPROM mPW SSID_ADDR
          (List.replicate 64 97)) PASS_ADDR
         = readStringFromEEPROM mPW PASS_ADDR) := by decide

/-- C1 amended: writeStringToEEPROM never truncates a value at the
63-character slot width. For a terminator-free value of length L with
L at least 64: written to the SSID slot with L < 128, it is stored and
loaded back whole (all L characters, not 63), and the write reaches
into the adjacent password slot, whose first byte (offset 64) becomes
the 65th character of the value, or its terminator when L = 64; written
to the password slot, the loaded value is exactly the first 64
characters of the value and no byte of the SSID slot is modified - the
only truncation is at the 128-byte EEPROM capacity, where the driver
drops out-of-range writes, never at the 64-byte slot boundary. -/
theorem write_no_truncation_claim (m : Nat → Nat) (v : List Nat)
    (hnz : ∀ c ∈ v, c ≠ 0) (h64 : 64 ≤ v.length) :
    (v.length < EEPROM_SIZE →
      readStringFromEEPROM (writeStringToEEPROM m SSID_ADDR v) SSID_ADDR = v ∧
      eepromRead (writeStringToEEPROM m SSID_ADDR v) PASS_ADDR = v.getD 64 0) ∧
    readStringFromEEPROM (writeStringToEEPROM m PASS_ADDR v) PASS_ADDR = v.take 64 ∧
    (∀ x, x < PASS_ADDR →
      eepromRead (writeStringToEEPROM m PASS_ADDR v) x = eepromRead m x) := by
  have hE : (EEPROM_SIZE : Nat) = 128 := rfl
  refine ⟨fun hlen => ⟨?_, ?_⟩, ?_, ?_⟩
  · exact readString_writeString m SSID_ADDR v hnz (by show 0 + v.length < 128; omega)
  · by_cases h : 64 < v.length
    · have hin := writeString_read_in m SSID_ADDR v 64 h (by show 0 + 64 < 128; omega)
      rw [show (PASS_ADDR : Nat) = SSID_ADDR + 64 from rfl]
      exact hin
    · have hexact : v.length = 64 := by omega
      have hterm := writeString_read_term m SSID_ADDR v
        (by show 0 + v.length < 128; omega)
      rw [hexact] at hterm
      rw [show (PASS_ADDR : Nat) = SSID_ADDR + 64 from rfl, hterm]
      exact (List.getD_eq_default _ _ (by omega)).symm
  · have hoob : writeStringToEEPROM m PASS_ADDR v = writeBytes m PASS_ADDR v := by
      unfold writeStringToEEPROM
      exact eepromWrite_oob _ _ _ (by show ¬ 64 + v.length < EEPROM_SIZE; omega)
    have htl : (v.take 64).length = 64 := by
      rw [List.length_take]
      omega
    apply readString_of
    · intro i hi
      rw [htl] at hi
      rw [hoob, writeBytes_read_in v m PASS_ADDR i (by omega) (by show 64 + i < 128; omega)]
      exact (getD_take_eq v 64 i hi).symm
    · intro c hc
      exact hnz c (mem_take_mem v 64 c hc)
    · rw [htl]
      exact eepromRead_oob _ _ (by decide)
    · rw [htl]
      decide
  · intro x hx
    exact writeString_read_below m PASS_ADDR v x hx

theorem write_no_truncation_witness :
    readStringFromEEPROM (writeStringToEEPROM mPW SSID_ADDR
        (List.replicate 65 97)) SSID_ADDR = List.replicate 65 97 ∧
    readStringFromEEPROM (writeStringToEEPROM mPW PASS_ADDR
        (List.replicate 65 97)) PASS_ADDR = (List.replicate 65 97).take 64 ∧
    eepromRead (writeStringToEEPROM mPW PASS_ADDR
        (List.replicate 65 97)) 0 = eepromRead mPW 0 := by
  have h := write_no_truncation_claim mPW (List.replicate 65 97) (by decide) (by decide)
  exact ⟨(h.1 (by decide)).1, h.2.1, h.2.2 0 (by decide)⟩

/-- C3 as stated fails: on all-erased storage (every byte 0xFF) loadAll
does not return the empty pair, because only a zero byte terminates the
read loop. -/
theorem load_erased_counterexample :
    loadCredentials (fun _ => 255) ≠ ([], []) := by decide

/-- C3 amended: loadCredentials is a total function; all-zero storage
yields the empty pair, but all-0xFF erased storage yields non-empty
strings of 0xFF bytes (128 of them for the SSID slot, whose read runs
across the whole EEPROM, and 64 for the password slot, whose read stops
at the end of the EEPROM capacity). -/
theorem load_erased_claim :
    loadCredentials (fun _ => 0) = ([], []) ∧
    loadCredentials (fun _ => 255)
      = (List.replicate 128 255, List.replicate 64 255) := by decide

/-- Storage whose first 64 bytes are the letter a, whose byte at offset
64 (the first byte of the password slot) is the letter b, and zeros
elsewhere. -/
def mOverrun : Nat → Nat := fun a => if a < 64 then 97 else if a = 64 then 98 else 0

/-- C4 as stated fails: the read loop does not stop at 63 characters; on
a slot with no zero byte in its own range the returned string is 65
characters long and its last character is drawn from the adjacent
password slot. -/
theorem read_stop_counterexample :
    ¬ ((readStringFromEEPROM mOverrun SSID_ADDR).length ≤ 63) ∧
    readStringFromEEPROM mOverrun SSID_ADDR = List.replicate 64 97 ++ [98] := by decide

/-- Length bound of the read loop: each pass appends one byte and the
loop stops once len reaches EEPROM_SIZE. -/
theorem readLoop_length (m : Nat → Nat) (addr : Nat) :
    ∀ fuel k len data,
      (readLoop m addr k len data fuel).length ≤ data.length + (EEPROM_SIZE - len) := by
  intro fuel
  induction fuel with
  | zero =>
    intro k len data
    simp [readLoop]
  | succ fuel ih =>
    intro k len data
    rw [readLoop]
    by_cases hc : k ≠ 0 ∧ len < EEPROM_SIZE
    · rw [if_pos hc]
      have hrec := ih (eepromRead m (addr + len)) (len + 1)
        (data ++ [eepromRead m (addr + len)])
      have hlt := hc.2
      simp only [List.length_append, List.length_cons, List.length_nil] at hrec ⊢
      omega
    · rw [if_neg hc]
      omega

/-- C4 amended: the read loop stops at the first zero byte or after
EEPROM_SIZE = 128 characters, whichever comes first, so a returned
string has length at most 128 (not 63) and, as the counterexample shows,
may include bytes of the adjacent slot. -/
theorem read_bound_claim (m : Nat → Nat) (addr : Nat) :
    (readStringFromEEPROM m addr).length ≤ EEPROM_SIZE := by
  unfold readStringFromEEPROM
  have h1 := cString_length_le (readLoop m addr (eepromRead m addr) 0 [] (EEPROM_SIZE + 1))
  have h2 := readLoop_length m addr (EEPROM_SIZE + 1) (eepromRead m addr) 0 []
  simp only [List.length_nil, Nat.sub_zero, Nat.zero_add] at h2
  omega

/-! BLE characteristic write callbacks (main.cpp lines 134-167). The
device state collects the credential globals (main.cpp lines 56-57)
and the EEPROM contents; a callback returns the updated state together
with the requested restart, as the grace delay in ms passed to delay()
before ESP.restart(), or none when no restart is requested. -/

structure BLEState where
  wifi_ssid : List Nat
  wifi_password : List Nat
  eeprom : Nat → Nat

/-- SSIDCallbacks onWrite (main.cpp lines 135-146): on a non-empty value,
clear wifi_ssid, append the bytes of the value one by one, persist the
result to the SSID slot; an empty value is ignored. Never restarts. -/
def ssidOnWrite (s : BLEState) (value : List Nat) : BLEState × Option Nat :=
  if 0 < value.length then
    let newSsid := value.foldl (fun acc c => acc ++ [c]) []
    ({ s with wifi_ssid := newSsid,
              eeprom := writeStringToEEPROM s.eeprom SSID_ADDR newSsid }, none)
  else (s, none)

/-- PasswordCallbacks onWrite (main.cpp lines 153-166): on a non-empty
value, clear wifi_password, append the bytes of the value one by one,
persist the result to the password slot, then delay 1000 ms and restart
the device; an empty value is ignored. -/
def passwordOnWrite (s : BLEState) (value : List Nat) : BLEState × Option Nat :=
  if 0 < value.length then
    let newPass := value.foldl (fun acc c => acc ++ [c]) []
    ({ s with wifi_password := newPass,
              eeprom := writeStringToEEPROM s.eeprom PASS_ADDR newPass }, some 1000)
  else (s, none)

theorem foldl_append_eq (value acc : List Nat) :
    value.foldl (fun a c => a ++ [c]) acc = acc ++ value := by
  induction value generalizing acc with
  | nil => simp
  | cons c rest ih => simp [List.foldl_cons, ih]

/-- C2 as stated fails: a non-empty write to the secret characteristic
triggers the restart even when the network identifier in shared state is
empty, so the restart is not conditioned on a non-empty identifier. -/
theorem secret_restart_counterexample :
    ¬ (((passwordOnWrite ⟨[], [], fun _ => 0⟩ [112, 119]).2 = some 1000) ↔
       (⟨[], [], fun _ => 0⟩ : BLEState).wifi_ssid ≠ []) := by decide

/-- C2 amended: every non-empty write to the secret characteristic
updates the shared secret and the password slot and unconditionally
requests the device restart after the fixed 1000 ms grace delay,
regardless of the identifier; the identifier is never consulted. -/
theorem secret_restart_claim (s : BLEState) (v : List Nat) (h : 0 < v.length) :
    passwordOnWrite s v =
      ({ s with wifi_password := v,
                eeprom := writeStringToEEPROM s.eeprom PASS_ADDR v }, some 1000) := by
  unfold passwordOnWrite
  rw [if_pos h]
  simp [foldl_append_eq]

theorem secret_restart_witness :
    passwordOnWrite ⟨[], [], fun _ => 0⟩ [115] =
      (⟨[], [115], writeStringToEEPROM (fun _ => 0) PASS_ADDR [115]⟩, some 1000) :=
  secret_restart_claim ⟨[], [], fun _ => 0⟩ [115] (by decide)

/-- C10: a zero-length write to either characteristic is ignored: the
credential fields, the EEPROM contents and everything else in the device
state are unchanged and no restart is requested. -/
theorem empty_write_claim (s : BLEState) :
    ssidOnWrite s [] = (s, none) ∧ passwordOnWrite s [] = (s, none) := by
  constructor <;> rfl

/-! Interleaving model for the shared credential globals. The write
handler body for the SSID characteristic (main.cpp lines 138-141) is a
sequence of separate statements on the shared global: first
wifi_ssid = "" (clear), then one append per received byte. FreeRTOS
schedules the BLE callback and the other tasks preemptively, so another
task can read the global between any two of these statements; a step
list makes those intermediate states explicit. -/

structure Shared where
  ssid : List Nat

/-- The atomic statements executed by SSIDCallbacks onWrite on the
shared global: the clearing assignment followed by one append per byte
of the received value. -/
def ssidWriteSteps (value : List Nat) : List (Shared → Shared) :=
  (fun _ => ⟨[]⟩) :: value.map (fun c s => ⟨s.ssid ++ [c]⟩)

/-- The shared state a concurrent reader observes after the first k
statements of the handler have executed. -/
def applySteps (steps : List (Shared → Shared)) (k : Nat) (s : Shared) : Shared :=
  (steps.take k).foldl (fun st f => f st) s

/-- C9 as stated fails: a reader scheduled after two of the four
statements of a three-byte SSID write observes the single-character
string a, which is neither the previous value x nor the new value abc:
a torn, partial credential value. -/
theorem shared_atomicity_counterexample :
    (applySteps (ssidWriteSteps [97, 98, 99]) 2 ⟨[120]⟩).ssid ≠ [120] ∧
    (applySteps (ssidWriteSteps [97, 98, 99]) 2 ⟨[120]⟩).ssid ≠ [97, 98, 99] ∧
    (applySteps (ssidWriteSteps [97, 98, 99]) 2 ⟨[120]⟩).ssid = [97] := by decide

theorem foldl_appendSteps (l acc : List Nat) :
    ((l.map (fun c (s : Shared) => (⟨s.ssid ++ [c]⟩ : Shared))).foldl
        (fun st f => f st) ⟨acc⟩ : Shared) = ⟨acc ++ l⟩ := by
  induction l generalizing acc with
  | nil => simp
  | cons c t ih => simp [List.foldl_cons, ih (acc ++ [c])]

/-- C9 amended: the credential writes are not atomic. The handler
executes a clearing statement and then one append per byte, with no
mutual-exclusion boundary, so a reader scheduled after the clear and the
first k appends observes exactly the k-character proper prefix of the
value being written, a partial value whenever 0 < k < length. -/
theorem shared_atomicity_claim (value : List Nat) (k : Nat) (s : Shared)
    (_h : k ≤ value.length) :
    (applySteps (ssidWriteSteps value) (k + 1) s).ssid = value.take k := by
  unfold applySteps ssidWriteSteps
  rw [List.take_succ_cons, List.foldl_cons, ← List.map_take]
  rw [foldl_appendSteps]
  simp

theorem shared_atomicity_witness :
    (applySteps (ssidWriteSteps [97, 98]) 2 ⟨[120]⟩).ssid = List.take 1 [97, 98] :=
  shared_atomicity_claim [97, 98] 1 ⟨[120]⟩ (by decide)

/-! The keepWiFiAlive task (main.cpp lines 233-262). Time is counted in
ms; the WiFi stack is an opaque environment oracle status : Nat to Bool
giving, for each time, whether WiFi.status() equals WL_CONNECTED at that
moment. vTaskDelay(d) advances time by d. One pass of the infinite for
loop becomes a step function from the iteration start time to the next
iteration start time, together with whether WiFi.begin was called this
pass and whether the attempt timed out (running the 20000 ms penalty
delay of line 250). -/

/-- Fuel for the connection poll loop: enough passes to cover the
10-second timeout window at one pass per 100 ms, so the loop always
exits through its own condition. -/
def POLL_FUEL : Nat := WIFI_TIMEOUT_MS / 100 + 1

/-- The poll loop of main.cpp lines 244-246: while WiFi is not connected
and less than WIFI_TIMEOUT_MS has elapsed since the attempt started,
sleep 100 ms. Returns the time at which the loop exits. -/
def pollLoopF (status : Nat → Bool) (start : Nat) : Nat → Nat → Nat
  | t, 0 => t
  | t, fuel + 1 =>
    if status t = false ∧ t - start < WIFI_TIMEOUT_MS then
      pollLoopF status start (t + 100) fuel
    else t

/-- Outcome of one pass of the keepWiFiAlive loop: the start time of the
next pass, whether WiFi.begin was called, and whether the attempt timed
out (so the 20000 ms penalty delay ran). -/
structure IterResult where
  next : Nat
  attempted : Bool
  timedOut : Bool
deriving DecidableEq

/-- One pass of the keepWiFiAlive for loop (main.cpp lines 234-261),
started at time t: if the SSID is configured and WiFi is not connected,
call WiFi.begin, poll until connected or timeout, add the 20000 ms
penalty delay when still unconnected, and in every path finish with the
30000 ms status-check delay of line 260. -/
def keepWiFiIter (ssid : List Nat) (status : Nat → Bool) (t : Nat) : IterResult :=
  if 0 < ssid.length then
    if status t = false then
      if status (pollLoopF status t t POLL_FUEL) = false then
        ⟨pollLoopF status t t POLL_FUEL + 20000 + 30000, true, true⟩
      else
        ⟨pollLoopF status t t POLL_FUEL + 30000, true, false⟩
    else ⟨t + 30000, false, false⟩
  else ⟨t + 30000, false, false⟩

/-- n passes of the keepWiFiAlive loop: the start time of pass n. -/
def runWiFi (ssid : List Nat) (status : Nat → Bool) : Nat → Nat → Nat
  | t, 0 => t
  | t, n + 1 => runWiFi ssid status (keepWiFiIter ssid status t).next n

theorem keepWiFiIter_empty (status : Nat → Bool) (t : Nat) :
    keepWiFiIter [] status t = ⟨t + 30000, false, false⟩ := rfl

theorem runWiFi_empty (status : Nat → Bool) :
    ∀ n t, runWiFi [] status t n = t + 30000 * n := by
  intro n
  induction n with
  | zero => intro t; simp [runWiFi]
  | succ n ih =>
    intro t
    rw [runWiFi, keepWiFiIter_empty]
    show runWiFi [] status (t + 30000) n = _
    rw [ih]
    ring

/-- C8: for every execution in which the network identifier is empty,
the manager never calls WiFi.begin; every pass only re-checks on the
fixed 30000 ms poll interval, for any number of passes and any behavior
of the WiFi status oracle. -/
theorem idle_no_attempt_claim (status : Nat → Bool) (t n : Nat) :
    runWiFi [] status t n = t + 30000 * n ∧
    (keepWiFiIter [] status (runWiFi [] status t n)).attempted = false := by
  refine ⟨runWiFi_empty status n t, ?_⟩
  rw [keepWiFiIter_empty]

/-- When the status oracle reports disconnected at every time, the poll
loop started at its own start time runs the full 100 passes of 100 ms
and exits exactly at start + WIFI_TIMEOUT_MS. -/
theorem pollLoopF_fail (status : Nat → Bool) (hfail : ∀ u, status u = false) (start : Nat) :
    ∀ fuel k, k ≤ 100 → 101 ≤ fuel + k →
      pollLoopF status start (start + 100 * k) fuel = start + WIFI_TIMEOUT_MS := by
  intro fuel
  induction fuel with
  | zero =>
    intro k h1 h2
    exfalso; omega
  | succ fuel ih =>
    intro k h1 h2
    by_cases hk : k < 100
    · rw [pollLoopF,
        if_pos ⟨hfail _, by show start + 100 * k - start < 10000; omega⟩]
      have harg : start + 100 * k + 100 = start + 100 * (k + 1) := by ring
      rw [harg]
      exact ih (k + 1) (by omega) (by omega)
    · have hk100 : k = 100 := by omega
      subst hk100
      rw [pollLoopF, if_neg]
      · show start + 100 * 100 = start + WIFI_TIMEOUT_MS
        norm_num [WIFI_TIMEOUT_MS]
      · intro hcon
        have h3 : start + 100 * 100 - start < 10000 := hcon.2
        omega

/-- One pass under sustained failure: the attempt starts at t, polls for
exactly WIFI_TIMEOUT_MS = 10000 ms, runs the 20000 ms penalty delay and
the 30000 ms loop delay, so the next pass starts at t + 60000. -/
theorem keepWiFiIter_fail (ssid : List Nat) (status : Nat → Bool)
    (hssid : 0 < ssid.length) (hfail : ∀ u, status u = false) (t : Nat) :
    keepWiFiIter ssid status t = ⟨t + 60000, true, true⟩ := by
  have hpoll : pollLoopF status t t POLL_FUEL = t + WIFI_TIMEOUT_MS := by
    have h := pollLoopF_fail status hfail t POLL_FUEL 0 (by omega) (by decide)
    simpa using h
  unfold keepWiFiIter
  rw [if_pos hssid, hfail t, if_pos rfl, hpoll, hfail (t + WIFI_TIMEOUT_MS), if_pos rfl]
  have harith : t + WIFI_TIMEOUT_MS + 20000 + 30000 = t + 60000 := by
    have hE : (WIFI_TIMEOUT_MS : Nat) = 10000 := rfl
    omega
  rw [harith]

theorem runWiFi_fail (ssid : List Nat) (status : Nat → Bool)
    (hssid : 0 < ssid.length) (hfail : ∀ u, status u = false) :
    ∀ n t, runWiFi ssid status t n = t + 60000 * n := by
  intro n
  induction n with
  | zero => intro t; simp [runWiFi]
  | succ n ih =>
    intro t
    rw [runWiFi, keepWiFiIter_fail ssid status hssid hfail t]
    show runWiFi ssid status (t + 60000) n = _
    rw [ih]
    ring

/-- C7: under sustained failure every pass calls WiFi.begin, polls for
the full fixed 10000 ms timeout at 100 ms steps, runs the fixed 20000 ms
penalty delay, and the next pass starts exactly 60000 ms later; this
holds for every pass index n, so the cycle repeats indefinitely with a
backoff that never grows and no retry cap. -/
theorem retry_forever_claim (ssid : List Nat) (status : Nat → Bool) (t : Nat)
    (hssid : 0 < ssid.length) (hfail : ∀ u, status u = false) (n : Nat) :
    runWiFi ssid status t n = t + 60000 * n ∧
    keepWiFiIter ssid status (runWiFi ssid status t n)
      = ⟨t + 60000 * n + 60000, true, true⟩ := by
  refine ⟨runWiFi_fail ssid status hssid hfail n t, ?_⟩
  rw [runWiFi_fail ssid status hssid hfail n t]
  exact keepWiFiIter_fail ssid status hssid hfail _

theorem retry_forever_witness :
    runWiFi [97] (fun _ => false) 0 2 = 0 + 60000 * 2 ∧
    keepWiFiIter [97] (fun _ => false) (runWiFi [97] (fun _ => false) 0 2)
      = ⟨0 + 60000 * 2 + 60000, true, true⟩ :=
  retry_forever_claim [97] (fun _ => false) 0 (by decide) (fun _ => rfl) 2

/-- WiFi status oracle that reports connected at time 0 and disconnected
from time 1 ms onwards. -/
def statusDrop : Nat → Bool := fun u => u == 0

/-- C6 as stated fails: connectivity is lost at time 1 ms, but the pass
covering that moment initiates no attempt; the manager sleeps until its
next poll and only the pass starting at 30000 ms calls WiFi.begin, i.e.
it first waits out the same fixed 30-second interval that paces the
idle state, instead of re-entering connecting immediately. -/
theorem reconnect_immediate_counterexample :
    statusDrop 1 = false ∧
    keepWiFiIter [97] statusDrop 0 = ⟨30000, false, false⟩ ∧
    (keepWiFiIter [97] statusDrop 30000).attempted = true := by decide

/-- C6 amended: disconnection is only detected at the next pass of the
30000 ms loop; at whatever pass first observes the link down, the
manager enters the connecting branch and calls WiFi.begin within that
same pass, with no additional idle wait after detection. -/
theorem reconnect_at_next_poll_claim (ssid : List Nat) (status : Nat → Bool) (t : Nat)
    (hssid : 0 < ssid.length) (hconn : status t = true)
    (hdrop : status (t + 30000) = false) :
    keepWiFiIter ssid status t = ⟨t + 30000, false, false⟩ ∧
    (keepWiFiIter ssid status (t + 30000)).attempted = true := by
  constructor
  · unfold keepWiFiIter
    rw [if_pos hssid, hconn, if_neg (by decide)]
  · unfold keepWiFiIter
    rw [if_pos hssid, hdrop, if_pos rfl]
    by_cases hs : status (pollLoopF status (t + 30000) (t + 30000) POLL_FUEL) = false
    · rw [if_pos hs]
    · rw [if_neg hs]

theorem reconnect_at_next_poll_witness :
    keepWiFiIter [97] statusDrop 0 = ⟨0 + 30000, false, false⟩ ∧
    (keepWiFiIter [97] statusDrop (0 + 30000)).attempted = true :=
  reconnect_at_next_poll_claim [97] statusDrop 0 (by decide) (by decide) (by decide)

end ESP32Prov
